import Mathlib

/-!
# A formal model of the nest-mediator pipeline engine

This file is a shallow embedding, in Lean, of the `MediatorBus` of the
nest-mediator repository (`mediator-bus.service.ts`) together with the
declarations it depends on (`pipeline-behavior.interface.ts`,
`skip-behavior.decorator.ts`, `handler-not-found.exception.ts`,
`validation.exception.ts`, `validation.behavior.ts`).

Modelling choices:
* JS class objects (`Type<...>`) are modelled by records carrying a numeric
  identity (`id`): reference equality of classes (`===`) becomes equality of
  ids.  A class's `name` field is a separate `String`, since distinct classes
  may share a display name.
* `() => Promise<T>` thunks are modelled by the pure state-passing type
  `PipeM`: a function from the current event trace to the extended trace
  together with either a value or a thrown JS exception.  The sequential
  `await` semantics of the source is exactly this state threading.
* `Map<string, _>` is modelled by an association list; `Map.has` is
  `(List.lookup _ _).isSome` and `Map.set` (only ever reached for absent
  keys) appends.
* `Array.prototype.sort` is, per the ECMAScript specification, a *stable*
  sort; with the comparator `(a, b) => (a.priority ?? 0) - (b.priority ?? 0)`
  its result is the unique stable reordering that is sorted by effective
  priority.  It is modelled by `stableSortByPriority`, an insertion sort
  that inserts each pushed element after all elements of less-or-equal key,
  which realises exactly that unique stable result.
-/

namespace NestMediator

/-- The behavior scope union type `'command' | 'query' | 'all'` from
`pipeline-behavior.interface.ts`. -/
inductive Scope where
  | command
  | query
  | all
deriving DecidableEq, Repr

/-- The namespace union type `'command' | 'query'` used by `send`/`query` and
by `HandlerNotFoundException.requestType`. -/
inductive DispatchKind where
  | command
  | query
deriving DecidableEq, Repr

/-- The evident embedding of the two-valued namespace strings into the
three-valued scope strings (`'command' === 'command'` etc.). -/
def DispatchKind.toScope : DispatchKind → Scope
  | .command => .command
  | .query => .query

/-- Runtime values flowing through handlers and behaviors (TS `any`). -/
inductive Value where
  | unit
  | int (n : Int)
  | str (s : String)
deriving DecidableEq, Repr

/-- A single field-level validation error (`validation.exception.ts`,
interface `ValidationError`; the optional `code`/`value`/`children` fields
play no role in the modelled control flow). -/
structure VError where
  property : String
  message : String
deriving DecidableEq, Repr

/-- JS exceptions thrown by the modelled code: a plain `new Error(message)`,
`HandlerNotFoundException` (which carries the request name and the
namespace), and `ValidationException` (which carries the full error list). -/
inductive JsErr where
  | error (message : String)
  | handlerNotFound (requestName : String) (requestType : DispatchKind)
  | validationExc (errors : List VError)
deriving DecidableEq, Repr

/-- Observable events recorded by instrumented (tracing) behaviors and
handlers, in the sense of the spec's "shared mutable trace log". -/
inductive Ev where
  | enter (id : Nat)
  | leave (id : Nat)
  | handled (v : Value)
deriving DecidableEq, Repr

/-- A shared mutable trace log. -/
abbrev Trace := List Ev

/-- Pure model of a `() => Promise<T>` thunk: given the trace so far, it
returns the extended trace and either a result or a thrown exception. -/
def PipeM (α : Type) : Type := Trace → Trace × Except JsErr α

/-- A request class (`Type<ICommand>` / `Type<IQuery>`): its reference
identity, its display `name`, and its `SKIP_BEHAVIORS_METADATA` (the list of
behavior-class identities declared via `@SkipBehavior`; `[]` when the
decorator is absent, matching the `?? []` in `buildPipeline`). -/
structure RequestType where
  id : Nat
  name : String
  skipList : List Nat
deriving DecidableEq, Repr

/-- A request instance.  `isObj` models `typeof request === 'object'`
(class instances always satisfy it; primitives do not). -/
structure Request where
  ty : RequestType
  isObj : Bool
  data : Value
deriving DecidableEq, Repr

/-- A behavior class (`Type<IPipelineBehavior>`): its reference identity, its
display name, the request type declared via the `@Handle()` metadata
(`design:paramtypes`) when present, and the `handle` method of the instance
the module ref resolves for it. -/
structure BehaviorType where
  id : Nat
  name : String
  targetType : Option Nat
  handle : Request → PipeM Value → PipeM Value

/-- `PipelineBehaviorOptions` from `pipeline-behavior.interface.ts`: optional
`priority` (default 0) and optional `scope` (default `'all'`). -/
structure PipelineBehaviorOptions where
  priority : Option Int
  scope : Option Scope

/-- `RegisteredBehavior` from `mediator-bus.service.ts`: a behavior class
together with the options it was registered with. -/
structure RegisteredBehavior where
  ty : BehaviorType
  options : PipelineBehaviorOptions

/-- A handler class (`Type<ICommandHandler>` / `Type<IQueryHandler>`),
identified with the `execute` method of its resolved instance. -/
structure HandlerRef where
  execute : Request → PipeM Value

/-- The mediator bus state: the two name-keyed handler maps and the
priority-ordered behavior list. -/
structure MediatorBus where
  commandHandlers : List (String × HandlerRef)
  queryHandlers : List (String × HandlerRef)
  pipelineBehaviors : List RegisteredBehavior

/-- A bus with nothing registered. -/
def emptyBus : MediatorBus :=
  { commandHandlers := [], queryHandlers := [], pipelineBehaviors := [] }

/-- `options.priority ?? 0`: the key used by the sort comparator. -/
def effPriority (b : RegisteredBehavior) : Int :=
  b.options.priority.getD 0

/-- Insert a behavior after every element of less-or-equal effective
priority (the position a stable sort assigns to a newly pushed element). -/
def sortInsert (a : RegisteredBehavior) :
    List RegisteredBehavior → List RegisteredBehavior
  | [] => [a]
  | b :: l => if effPriority b ≤ effPriority a then b :: sortInsert a l
              else a :: b :: l

/-- Model of `array.sort((a, b) => (a.options.priority ?? 0) -
(b.options.priority ?? 0))`: the stable sort by effective priority. -/
def stableSortByPriority (l : List RegisteredBehavior) :
    List RegisteredBehavior :=
  l.foldl (fun acc a => sortInsert a acc) []

/-- `MediatorBus.registerCommandHandler`: throws a plain `Error` when the
command's name is already a key of the map, otherwise stores the
association. -/
def registerCommandHandler (bus : MediatorBus) (command : RequestType)
    (handler : HandlerRef) : Except JsErr MediatorBus :=
  let commandName := command.name
  if (bus.commandHandlers.lookup commandName).isSome then
    .error (.error ("Command handler for " ++ commandName ++
      " is already registered"))
  else
    .ok { bus with
          commandHandlers := bus.commandHandlers ++ [(commandName, handler)] }

/-- `MediatorBus.registerQueryHandler`: same as the command side, on the
query namespace. -/
def registerQueryHandler (bus : MediatorBus) (query : RequestType)
    (handler : HandlerRef) : Except JsErr MediatorBus :=
  let queryName := query.name
  if (bus.queryHandlers.lookup queryName).isSome then
    .error (.error ("Query handler for " ++ queryName ++
      " is already registered"))
  else
    .ok { bus with
          queryHandlers := bus.queryHandlers ++ [(queryName, handler)] }

/-- `MediatorBus.registerPipelineBehavior`: pushes the descriptor, then
re-sorts the whole list by `(priority ?? 0)` ascending (stable). -/
def registerPipelineBehavior (bus : MediatorBus)
    (behaviorType : BehaviorType) (options : PipelineBehaviorOptions) :
    MediatorBus :=
  { bus with
    pipelineBehaviors :=
      stableSortByPriority
        (bus.pipelineBehaviors ++ [{ ty := behaviorType, options := options }]) }

/-- A sequence of `registerPipelineBehavior` calls, in call order. -/
def registerAll (bus : MediatorBus)
    (regs : List (BehaviorType × PipelineBehaviorOptions)) : MediatorBus :=
  regs.foldl (fun b p => registerPipelineBehavior b p.1 p.2) bus

/-- The filter of `buildPipeline`: a registered behavior is applicable iff
its scope (defaulted to `'all'`) is `'all'` or equals the dispatch
namespace, and its class identity is not in the request class's skip list. -/
def applicableBehaviors (bus : MediatorBus) (request : Request)
    (scope : DispatchKind) : List RegisteredBehavior :=
  bus.pipelineBehaviors.filter fun b =>
    let behaviorScope := b.options.scope.getD .all
    let scopeMatches :=
      behaviorScope == .all || behaviorScope == scope.toScope
    let shouldSkip :=
      request.ty.skipList.any fun skipType => skipType == b.ty.id
    scopeMatches && !shouldSkip

/-- `MediatorBus.buildPipeline`: selects the applicable behaviors and
composes them around the terminal handler by `reduceRight` — the last
applicable behavior wraps the handler, the first is outermost. -/
def buildPipeline (bus : MediatorBus) (request : Request)
    (scope : DispatchKind) (handler : PipeM Value) : PipeM Value :=
  let aps := applicableBehaviors bus request scope
  if aps.isEmpty then handler
  else aps.foldr (fun b next => b.ty.handle request next) handler

/-- `MediatorBus.send`: resolves the command handler by the request's
constructor name, throwing `HandlerNotFoundException` if absent, then builds
and returns the pipeline.  The bus state is returned unchanged (the method
never writes to the registries). -/
def send (bus : MediatorBus) (command : Request) :
    MediatorBus × PipeM Value :=
  let commandName := command.ty.name
  match bus.commandHandlers.lookup commandName with
  | none =>
      (bus, fun tr => (tr, .error (.handlerNotFound commandName .command)))
  | some handlerType =>
      (bus, buildPipeline bus command .command
        (fun tr => handlerType.execute command tr))

/-- `MediatorBus.query`: the query-side dispatch, returning the handler's
result through the pipeline. -/
def query (bus : MediatorBus) (q : Request) : MediatorBus × PipeM Value :=
  let queryName := q.ty.name
  match bus.queryHandlers.lookup queryName with
  | none =>
      (bus, fun tr => (tr, .error (.handlerNotFound queryName .query)))
  | some handlerType =>
      (bus, buildPipeline bus q .query
        (fun tr => handlerType.execute q tr))

/-- `ValidationBehavior.handle` (`validation.behavior.ts`): non-objects are
delegated untouched; otherwise the request is run through the validation
strategy (the `validateRequest` probing of `class-validator` is abstracted
as the parameter `validate`), a non-empty error list is thrown as a
`ValidationException`, and an empty one delegates to `next` unchanged. -/
def ValidationBehavior.handle (validate : Request → List VError)
    (request : Request) (next : PipeM Value) : PipeM Value :=
  if !request.isObj then next
  else
    let errors := validate request
    if errors.length > 0 then fun tr => (tr, .error (.validationExc errors))
    else next

/-- The `handle` method of a trace-logging behavior instance with class
identity `id`: it logs `enter` before calling `next` and `leave` after it
returns; a thrown error propagates (the `await` rethrows before the
trailing log would run). -/
def tracedHandle (id : Nat) : Request → PipeM Value → PipeM Value :=
  fun _ next tr =>
    match next (tr ++ [.enter id]) with
    | (tr', .ok v) => (tr' ++ [.leave id], .ok v)
    | (tr', .error e) => (tr', .error e)

/-- A trace-logging behavior class, in the sense of the spec's "shared
mutable trace log" test behaviors. -/
def tracedBehaviorType (id : Nat) (targetType : Option Nat := none) :
    BehaviorType :=
  { id := id
    name := "TracedBehavior" ++ toString id
    targetType := targetType
    handle := tracedHandle id }

/-- A registered behavior whose resolved instance is the trace-logging one
for its own class identity. -/
def IsTraced (b : RegisteredBehavior) : Prop :=
  b.ty.handle = tracedHandle b.ty.id

/-- A handler class whose instance logs `handled v` and returns `v`. -/
def handlerReturning (v : Value) : HandlerRef :=
  { execute := fun _ tr => (tr ++ [.handled v], .ok v) }

/-- The spec's example scenario: behaviors A (class id 1, priority -100),
B (class id 2, priority 0), C (class id 3, priority 100), all scope `all`,
registered in that order, and a query handler for `Q` returning 42. -/
def busABC : MediatorBus :=
  registerAll
    { emptyBus with queryHandlers := [("Q", handlerReturning (.int 42))] }
    [(tracedBehaviorType 1, ⟨some (-100), some .all⟩),
     (tracedBehaviorType 2, ⟨some 0, some .all⟩),
     (tracedBehaviorType 3, ⟨some 100, some .all⟩)]

/-- The query instance `Q` of the example scenario. -/
def reqQ : Request := ⟨⟨10, "Q", []⟩, true, .unit⟩

/-- A bus with one traced behavior (class id 7, scope `all`) and a query
handler for `Q`. -/
def busSkip : MediatorBus :=
  { commandHandlers := []
    queryHandlers := [("Q", handlerReturning .unit)]
    pipelineBehaviors := [⟨tracedBehaviorType 7, ⟨some 0, some .all⟩⟩] }

/-- A request whose class declares `@SkipBehavior` on class id 7. -/
def reqSkip : Request := ⟨⟨11, "Q", [7]⟩, true, .unit⟩

/-- A bus with one traced behavior scoped to queries (class id 8) and
handlers for `R` in both namespaces. -/
def busQScoped : MediatorBus :=
  { commandHandlers := [("R", handlerReturning .unit)]
    queryHandlers := [("R", handlerReturning .unit)]
    pipelineBehaviors := [⟨tracedBehaviorType 8, ⟨some 0, some .query⟩⟩] }

/-- A bus with one traced behavior scoped to commands (class id 9) and
handlers for `R` in both namespaces. -/
def busCScoped : MediatorBus :=
  { commandHandlers := [("R", handlerReturning .unit)]
    queryHandlers := [("R", handlerReturning .unit)]
    pipelineBehaviors := [⟨tracedBehaviorType 9, ⟨some 0, some .command⟩⟩] }

/-- A bus with one traced behavior of scope `all` (class id 12) and
handlers for `R` in both namespaces. -/
def busAllScoped : MediatorBus :=
  { commandHandlers := [("R", handlerReturning .unit)]
    queryHandlers := [("R", handlerReturning .unit)]
    pipelineBehaviors := [⟨tracedBehaviorType 12, ⟨some 0, some .all⟩⟩] }

/-- A request instance `R` with an empty skip list. -/
def reqR : Request := ⟨⟨13, "R", []⟩, true, .unit⟩

/-- The bus obtained by registering traced behavior classes `regs` (class
ids with their options, in call order) when the only handler is a command
handler for `name` returning `v`. -/
def tracedCommandBus (name : String) (v : Value)
    (regs : List (Nat × PipelineBehaviorOptions)) : MediatorBus :=
  registerAll
    { emptyBus with commandHandlers := [(name, handlerReturning v)] }
    (regs.map fun p => (tracedBehaviorType p.1, p.2))

/-- The same bus with a query handler instead. -/
def tracedQueryBus (name : String) (v : Value)
    (regs : List (Nat × PipelineBehaviorOptions)) : MediatorBus :=
  registerAll
    { emptyBus with queryHandlers := [(name, handlerReturning v)] }
    (regs.map fun p => (tracedBehaviorType p.1, p.2))

/-! ## Properties of the registration-time stable sort -/

/-- `sortInsert` inserts exactly once: the result is a permutation of the
element consed onto the list. -/
theorem sortInsert_perm (a : RegisteredBehavior) :
    ∀ l : List RegisteredBehavior, List.Perm (sortInsert a l) (a :: l) := by
  intro l
  induction l with
  | nil => simp [sortInsert]
  | cons b l ih =>
      by_cases h : effPriority b ≤ effPriority a
      · simpa [sortInsert, h] using (ih.cons b).trans (List.Perm.swap a b l)
      · simp [sortInsert, h]

/-- `sortInsert` preserves sortedness by effective priority. -/
theorem sortInsert_sorted (a : RegisteredBehavior) :
    ∀ {l : List RegisteredBehavior},
      l.Pairwise (fun x y => effPriority x ≤ effPriority y) →
      (sortInsert a l).Pairwise (fun x y => effPriority x ≤ effPriority y) := by
  intro l
  induction l with
  | nil => intro _; simp [sortInsert]
  | cons b l ih =>
      intro h
      rw [List.pairwise_cons] at h
      by_cases hba : effPriority b ≤ effPriority a
      · rw [sortInsert, if_pos hba, List.pairwise_cons]
        refine ⟨?_, ih h.2⟩
        intro x hx
        have hx' := (sortInsert_perm a l).mem_iff.1 hx
        rcases List.mem_cons.1 hx' with rfl | hx''
        · exact hba
        · exact h.1 x hx''
      · rw [sortInsert, if_neg hba, List.pairwise_cons]
        refine ⟨?_, List.pairwise_cons.2 h⟩
        intro x hx
        rcases List.mem_cons.1 hx with rfl | hx
        · exact le_of_lt (lt_of_not_le hba)
        · exact le_trans (le_of_lt (lt_of_not_le hba)) (h.1 x hx)

/-- Stability of `sortInsert` on sorted input, in filter form: the
subsequence at any fixed effective priority gains the new element at its
end (a pushed element lands after its equal-priority predecessors). -/
theorem sortInsert_filter (a : RegisteredBehavior) (k : Int) :
    ∀ {l : List RegisteredBehavior},
      l.Pairwise (fun x y => effPriority x ≤ effPriority y) →
      (sortInsert a l).filter (fun b => effPriority b == k) =
        l.filter (fun b => effPriority b == k) ++
          (if effPriority a == k then [a] else []) := by
  intro l
  induction l with
  | nil => intro _; by_cases h : effPriority a == k <;> simp [sortInsert, h]
  | cons b l ih =>
      intro hs
      rw [List.pairwise_cons] at hs
      by_cases hba : effPriority b ≤ effPriority a
      · rw [sortInsert, if_pos hba]
        by_cases hbk : effPriority b == k <;>
          simp [List.filter_cons, hbk, ih hs.2]
      · rw [sortInsert, if_neg hba]
        by_cases hak : effPriority a == k
        · have hak' : effPriority a = k := by simpa using hak
          have hnil : (b :: l).filter (fun x => effPriority x == k) = [] := by
            rw [List.filter_eq_nil_iff]
            intro x hx
            have hbx : effPriority b ≤ effPriority x := by
              rcases List.mem_cons.1 hx with rfl | hx
              · exact le_refl _
              · exact hs.1 x hx
            simp only [beq_iff_eq]
            intro hxk
            refine hba ?_
            rw [hak', ← hxk]
            exact hbx
          simp [List.filter_cons, hak, hnil]
        · simp [List.filter_cons, hak]

/-- Every accumulator reached by the insertion fold is sorted. -/
theorem foldl_sortInsert_sorted :
    ∀ (l acc : List RegisteredBehavior),
      acc.Pairwise (fun x y => effPriority x ≤ effPriority y) →
      (l.foldl (fun acc a => sortInsert a acc) acc).Pairwise
        (fun x y => effPriority x ≤ effPriority y)
  | [], _, h => h
  | a :: l, _, h => foldl_sortInsert_sorted l _ (sortInsert_sorted a h)

/-- The registration-time sort sorts by effective priority. -/
theorem stableSortByPriority_sorted (l : List RegisteredBehavior) :
    (stableSortByPriority l).Pairwise
      (fun x y => effPriority x ≤ effPriority y) :=
  foldl_sortInsert_sorted l [] List.Pairwise.nil

/-- The insertion fold is stable: it preserves the subsequence at each
fixed effective priority. -/
theorem foldl_sortInsert_filter (k : Int) :
    ∀ (l acc : List RegisteredBehavior),
      acc.Pairwise (fun x y => effPriority x ≤ effPriority y) →
      (l.foldl (fun acc a => sortInsert a acc) acc).filter
          (fun b => effPriority b == k) =
        acc.filter (fun b => effPriority b == k) ++
          l.filter (fun b => effPriority b == k)
  | [], _, _ => by simp
  | a :: l, acc, h => by
      rw [List.foldl_cons,
        foldl_sortInsert_filter k l _ (sortInsert_sorted a h),
        sortInsert_filter a k h]
      by_cases hak : (effPriority a == k) = true <;>
        simp [List.filter_cons, hak]

/-- The registration-time sort is stable, in filter form. -/
theorem stableSortByPriority_filter (k : Int) (l : List RegisteredBehavior) :
    (stableSortByPriority l).filter (fun b => effPriority b == k) =
      l.filter (fun b => effPriority b == k) := by
  simpa using foldl_sortInsert_filter k l [] List.Pairwise.nil

/-- The insertion fold permutes its input. -/
theorem foldl_sortInsert_perm :
    ∀ (l acc : List RegisteredBehavior),
      List.Perm (l.foldl (fun acc a => sortInsert a acc) acc) (acc ++ l)
  | [], acc => by simp
  | a :: l, acc => by
      rw [List.foldl_cons]
      refine (foldl_sortInsert_perm l (sortInsert a acc)).trans ?_
      refine (((sortInsert_perm a acc).append_right l).trans ?_)
      simpa using List.perm_middle.symm

/-- The registration-time sort permutes the behavior list. -/
theorem stableSortByPriority_perm (l : List RegisteredBehavior) :
    List.Perm (stableSortByPriority l) l := by
  simpa using foldl_sortInsert_perm l []

/-! ## Registry-level lemmas -/

/-- The registered-behavior descriptor built from one `register` call. -/
def mkRB (p : BehaviorType × PipelineBehaviorOptions) : RegisteredBehavior :=
  { ty := p.1, options := p.2 }

/-- Behavior registration never touches the command-handler map. -/
theorem registerAll_commandHandlers
    (regs : List (BehaviorType × PipelineBehaviorOptions)) (bus : MediatorBus) :
    (registerAll bus regs).commandHandlers = bus.commandHandlers := by
  induction regs generalizing bus with
  | nil => rfl
  | cons p regs ih => simpa [registerAll, registerPipelineBehavior] using ih _

/-- Behavior registration never touches the query-handler map. -/
theorem registerAll_queryHandlers
    (regs : List (BehaviorType × PipelineBehaviorOptions)) (bus : MediatorBus) :
    (registerAll bus regs).queryHandlers = bus.queryHandlers := by
  induction regs generalizing bus with
  | nil => rfl
  | cons p regs ih => simpa [registerAll, registerPipelineBehavior] using ih _

/-- After any sequence of registrations on a sorted registry, the registry
is still sorted by effective priority. -/
theorem registerAll_sorted
    (regs : List (BehaviorType × PipelineBehaviorOptions)) (bus : MediatorBus)
    (h : bus.pipelineBehaviors.Pairwise
      (fun x y => effPriority x ≤ effPriority y)) :
    (registerAll bus regs).pipelineBehaviors.Pairwise
      (fun x y => effPriority x ≤ effPriority y) := by
  induction regs generalizing bus with
  | nil => exact h
  | cons p regs ih =>
      exact ih _ (stableSortByPriority_sorted _)

/-- Registration is stable across a whole call sequence: at each fixed
effective priority, the final registry lists the behaviors in registration
order. -/
theorem registerAll_filter (k : Int) :
    ∀ (regs : List (BehaviorType × PipelineBehaviorOptions))
      (bus : MediatorBus),
      (registerAll bus regs).pipelineBehaviors.filter
          (fun b => effPriority b == k) =
        bus.pipelineBehaviors.filter (fun b => effPriority b == k) ++
          (regs.map mkRB).filter (fun b => effPriority b == k)
  | [], bus => by simp [registerAll]
  | p :: regs, bus => by
      rw [registerAll, List.foldl_cons]
      rw [show (regs.foldl (fun b p => registerPipelineBehavior b p.1 p.2)
          (registerPipelineBehavior bus p.1 p.2)) =
        registerAll (registerPipelineBehavior bus p.1 p.2) regs from rfl]
      rw [registerAll_filter k regs _]
      rw [registerPipelineBehavior]
      simp only [stableSortByPriority_filter, List.filter_append,
        List.map_cons, List.filter_cons]
      by_cases hk :
          effPriority { ty := p.1, options := p.2 : RegisteredBehavior } = k <;>
        simp [mkRB, hk]

/-- Every behavior in the registry after a registration sequence came from
the initial registry or from one of the calls. -/
theorem mem_registerAll
    {b : RegisteredBehavior} :
    ∀ (regs : List (BehaviorType × PipelineBehaviorOptions))
      (bus : MediatorBus),
      b ∈ (registerAll bus regs).pipelineBehaviors →
      b ∈ bus.pipelineBehaviors ∨ b ∈ regs.map mkRB
  | [], bus, h => Or.inl h
  | p :: regs, bus, h => by
      rcases mem_registerAll regs (registerPipelineBehavior bus p.1 p.2) h with
        hm | hm
      · rw [registerPipelineBehavior] at hm
        have := (stableSortByPriority_perm _).mem_iff.1 hm
        rcases List.mem_append.1 this with hm' | hm'
        · exact Or.inl hm'
        · exact Or.inr (by
            simp only [List.map_cons, List.mem_cons]
            exact Or.inl (by simpa [mkRB] using List.mem_singleton.1 hm'))
      · exact Or.inr (by simp only [List.map_cons, List.mem_cons]; right; exact hm)

/-! ## The composed chain of traced behaviors -/

/-- Running the `reduceRight`-composed chain of trace-logging behaviors
around an arbitrary terminal thunk: every chain member logs `enter` on the
way in (in list order) and `leave` on the way out (in reverse order), with
the terminal thunk innermost; a thrown error unwinds without the `leave`
logs. -/
theorem traced_foldr (req : Request) :
    ∀ (l : List RegisteredBehavior), (∀ b ∈ l, IsTraced b) →
      ∀ (h : PipeM Value) (tr : Trace),
      (l.foldr (fun b next => b.ty.handle req next) h) tr =
        match h (tr ++ l.map fun b => Ev.enter b.ty.id) with
        | (tr', .ok v) =>
            (tr' ++ (l.map fun b => Ev.leave b.ty.id).reverse, .ok v)
        | (tr', .error e) => (tr', .error e) := by
  intro l
  induction l with
  | nil =>
      intro _ h tr
      simp only [List.foldr_nil, List.map_nil, List.append_nil,
        List.reverse_nil]
      rcases hh : h tr with ⟨tr', r⟩
      cases r <;> simp
  | cons b l ih =>
      intro hl h tr
      have hb : IsTraced b := hl b (List.mem_cons_self b l)
      rw [List.foldr_cons, hb]
      show (match (l.foldr (fun b next => b.ty.handle req next) h)
          (tr ++ [Ev.enter b.ty.id]) with
        | (tr', Except.ok v) => (tr' ++ [Ev.leave b.ty.id], Except.ok v)
        | (tr', Except.error e) => (tr', Except.error e)) = _
      rw [ih (fun x hx => hl x (List.mem_cons_of_mem b hx)) h
        (tr ++ [Ev.enter b.ty.id])]
      simp only [List.map_cons, List.reverse_cons, List.append_assoc,
        List.cons_append, List.nil_append, List.singleton_append]
      rcases hh : h (tr ++ Ev.enter b.ty.id :: l.map fun x => Ev.enter x.ty.id)
        with ⟨tr', r⟩
      cases r <;> simp [List.append_assoc]

/-- The dispatch-time selection is a filter: it returns a sublist of the
registry, in registry order. -/
theorem applicable_sublist (bus : MediatorBus) (req : Request)
    (scope : DispatchKind) :
    (applicableBehaviors bus req scope).Sublist bus.pipelineBehaviors := by
  rw [applicableBehaviors]
  exact List.filter_sublist _

/-- Applicable behaviors are registered behaviors. -/
theorem mem_applicable {bus : MediatorBus} {req : Request}
    {scope : DispatchKind} {b : RegisteredBehavior}
    (h : b ∈ applicableBehaviors bus req scope) :
    b ∈ bus.pipelineBehaviors :=
  (applicable_sublist bus req scope).subset h

/-- Trace of a successful `query` dispatch through a registry of traced
behaviors: the applicable behaviors (in registry order) enter, the handler
runs innermost, and they leave in reverse order, the result flowing back
unchanged. -/
theorem query_run (bus : MediatorBus) (req : Request) (v : Value)
    (tr0 : Trace)
    (htr : ∀ b ∈ bus.pipelineBehaviors, IsTraced b)
    (hh : bus.queryHandlers.lookup req.ty.name = some (handlerReturning v)) :
    (query bus req).2 tr0 =
      (tr0 ++ ((applicableBehaviors bus req .query).map fun b =>
            Ev.enter b.ty.id) ++
        [Ev.handled v] ++
        ((applicableBehaviors bus req .query).map fun b =>
            Ev.leave b.ty.id).reverse,
       .ok v) := by
  rw [query]
  simp only [hh]
  rw [buildPipeline]
  by_cases hemp : (applicableBehaviors bus req .query).isEmpty
  · rw [List.isEmpty_iff] at hemp
    simp [hemp, handlerReturning]
  · rw [if_neg hemp,
      traced_foldr req _ (fun b hb => htr b (mem_applicable hb))]
    simp [handlerReturning, List.append_assoc]

/-- Trace of a successful `send` dispatch through a registry of traced
behaviors. -/
theorem send_run (bus : MediatorBus) (req : Request) (v : Value)
    (tr0 : Trace)
    (htr : ∀ b ∈ bus.pipelineBehaviors, IsTraced b)
    (hh : bus.commandHandlers.lookup req.ty.name =
      some (handlerReturning v)) :
    (send bus req).2 tr0 =
      (tr0 ++ ((applicableBehaviors bus req .command).map fun b =>
            Ev.enter b.ty.id) ++
        [Ev.handled v] ++
        ((applicableBehaviors bus req .command).map fun b =>
            Ev.leave b.ty.id).reverse,
       .ok v) := by
  rw [send]
  simp only [hh]
  rw [buildPipeline]
  by_cases hemp : (applicableBehaviors bus req .command).isEmpty
  · rw [List.isEmpty_iff] at hemp
    simp [hemp, handlerReturning]
  · rw [if_neg hemp,
      traced_foldr req _ (fun b hb => htr b (mem_applicable hb))]
    simp [handlerReturning, List.append_assoc]

/-- An applicable behavior's class is not on the request's skip list. -/
theorem applicable_not_skipped {bus : MediatorBus} {req : Request}
    {scope : DispatchKind} {x : RegisteredBehavior}
    (hx : x ∈ applicableBehaviors bus req scope) :
    x.ty.id ∉ req.ty.skipList := by
  intro hmem
  rw [applicableBehaviors] at hx
  have hpred := List.of_mem_filter hx
  simp only [Bool.and_eq_true, Bool.not_eq_true', List.any_eq_false] at hpred
  exact hpred.2 x.ty.id hmem (by simp)

/-- An applicable behavior's scope (defaulted to `all`) matches the
dispatch namespace. -/
theorem applicable_scope_matches {bus : MediatorBus} {req : Request}
    {scope : DispatchKind} {x : RegisteredBehavior}
    (hx : x ∈ applicableBehaviors bus req scope) :
    (x.options.scope.getD .all == Scope.all ||
      x.options.scope.getD .all == scope.toScope) = true := by
  rw [applicableBehaviors] at hx
  have hpred := List.of_mem_filter hx
  simp only [Bool.and_eq_true] at hpred
  exact hpred.1

/-- A registered behavior whose scope matches and whose class is not on the
request's skip list is applicable. -/
theorem mem_applicable_of {bus : MediatorBus} {req : Request}
    {scope : DispatchKind} {b : RegisteredBehavior}
    (hb : b ∈ bus.pipelineBehaviors)
    (hsc : (b.options.scope.getD .all == Scope.all ||
      b.options.scope.getD .all == scope.toScope) = true)
    (hsk : b.ty.id ∉ req.ty.skipList) :
    b ∈ applicableBehaviors bus req scope := by
  rw [applicableBehaviors]
  refine List.mem_filter.2 ⟨hb, ?_⟩
  simp only [Bool.and_eq_true, Bool.not_eq_true', List.any_eq_false]
  refine ⟨hsc, ?_⟩
  intro s hs hbeq
  exact hsk ((by simpa using hbeq : s = b.ty.id) ▸ hs)

/-- The `enter` event of a class id foreign to every applicable behavior
never occurs in the dispatch trace. -/
theorem enter_notin_trace {aps : List RegisteredBehavior} {i : Nat}
    {v : Value} (h : ∀ x ∈ aps, x.ty.id ≠ i) :
    Ev.enter i ∉
      (([] : Trace) ++ aps.map (fun b => Ev.enter b.ty.id) ++
        [Ev.handled v] ++ (aps.map fun b => Ev.leave b.ty.id).reverse) := by
  intro hmem
  simp only [List.nil_append, List.mem_append, List.mem_reverse,
    List.mem_map, List.mem_singleton] at hmem
  rcases hmem with (⟨x, hx, hxe⟩ | he) | ⟨x, hx, hxe⟩
  · exact h x hx (by simpa using hxe)
  · simp at he
  · simp at hxe

/-- `lookup` over an appended association list falls through a prefix that
does not contain the key. -/
theorem lookup_append_of_none {α β : Type} [BEq α]
    {l1 l2 : List (α × β)} {k : α} (h : l1.lookup k = none) :
    (l1 ++ l2).lookup k = l2.lookup k := by
  induction l1 with
  | nil => simp
  | cons p l1 ih =>
      rcases p with ⟨a, b⟩
      simp only [List.cons_append, List.lookup] at h ⊢
      cases hk : (k == a) with
      | true => rw [hk] at h; simp at h
      | false => rw [hk] at h; exact ih h

/-- Every behavior registered through a traced registration sequence on a
behavior-free bus is traced. -/
theorem registerAll_traced (bus0 : MediatorBus)
    (h0 : bus0.pipelineBehaviors = [])
    (regs : List (Nat × PipelineBehaviorOptions)) :
    ∀ x ∈ (registerAll bus0
        (regs.map fun p => (tracedBehaviorType p.1, p.2))).pipelineBehaviors,
      IsTraced x := by
  intro x hx
  rcases mem_registerAll _ _ hx with hx' | hx'
  · rw [h0] at hx'
    simp at hx'
  · rw [List.map_map] at hx'
    rcases List.mem_map.1 hx' with ⟨p, _, rfl⟩
    rfl

/-- Within each effective priority, the dispatch-time selection over a
registry built by a registration sequence lists exactly the applicable
registrations of that priority, in registration order. -/
theorem applicable_filter_key (bus0 : MediatorBus)
    (regs : List (BehaviorType × PipelineBehaviorOptions))
    (h0 : bus0.pipelineBehaviors = [])
    (req : Request) (scope : DispatchKind) (k : Int) :
    (applicableBehaviors (registerAll bus0 regs) req scope).filter
        (fun b => effPriority b == k) =
      (regs.map mkRB).filter
        (fun b =>
          ((b.options.scope.getD .all == Scope.all ||
            b.options.scope.getD .all == scope.toScope) &&
           !(req.ty.skipList.any fun s => s == b.ty.id)) &&
          (effPriority b == k)) := by
  rw [applicableBehaviors, List.filter_comm, registerAll_filter k regs bus0,
    h0]
  simp only [List.filter_nil, List.nil_append]
  rw [List.filter_filter]

/-! ## The claims -/

/-- C3: calling `registerCommandHandler` (or `registerQueryHandler`) with a
request type whose name is already registered in that namespace fails with
the duplicate-handler error and leaves the registry unchanged, so the
originally registered handler is still the one resolved afterwards. -/
theorem duplicate_registration_rejected :
    (∀ (bus bus1 : MediatorBus) (c c' : RequestType) (h1 h2 : HandlerRef),
      registerCommandHandler bus c h1 = .ok bus1 → c'.name = c.name →
      registerCommandHandler bus1 c' h2 =
          .error (.error ("Command handler for " ++ c'.name ++
            " is already registered")) ∧
        bus1.commandHandlers.lookup c.name = some h1 ∧
        bus1.queryHandlers = bus.queryHandlers ∧
        bus1.pipelineBehaviors = bus.pipelineBehaviors) ∧
    (∀ (bus bus1 : MediatorBus) (q q' : RequestType) (h1 h2 : HandlerRef),
      registerQueryHandler bus q h1 = .ok bus1 → q'.name = q.name →
      registerQueryHandler bus1 q' h2 =
          .error (.error ("Query handler for " ++ q'.name ++
            " is already registered")) ∧
        bus1.queryHandlers.lookup q.name = some h1 ∧
        bus1.commandHandlers = bus.commandHandlers ∧
        bus1.pipelineBehaviors = bus.pipelineBehaviors) := by
  constructor
  · intro bus bus1 c c' h1 h2 hreg hname
    rw [registerCommandHandler] at hreg
    split at hreg
    · simp at hreg
    · rename_i hcond
      have hlook : bus.commandHandlers.lookup c.name = none :=
        Option.not_isSome_iff_eq_none.1 hcond
      rw [Except.ok.injEq] at hreg
      subst hreg
      have hl2 : (bus.commandHandlers ++ [(c.name, h1)]).lookup c.name =
          some h1 := by
        rw [lookup_append_of_none hlook]; simp [List.lookup]
      refine ⟨?_, hl2, rfl, rfl⟩
      rw [registerCommandHandler]
      simp only [hname, hl2, Option.isSome_some, if_true]
  · intro bus bus1 q q' h1 h2 hreg hname
    rw [registerQueryHandler] at hreg
    split at hreg
    · simp at hreg
    · rename_i hcond
      have hlook : bus.queryHandlers.lookup q.name = none :=
        Option.not_isSome_iff_eq_none.1 hcond
      rw [Except.ok.injEq] at hreg
      subst hreg
      have hl2 : (bus.queryHandlers ++ [(q.name, h1)]).lookup q.name =
          some h1 := by
        rw [lookup_append_of_none hlook]; simp [List.lookup]
      refine ⟨?_, hl2, rfl, rfl⟩
      rw [registerQueryHandler]
      simp only [hname, hl2, Option.isSome_some, if_true]

/-- Witness for C3: a concrete duplicate registration is rejected with the
duplicate error and the first handler stays resolvable. -/
theorem duplicate_registration_rejected_witness :
    registerCommandHandler
        { emptyBus with commandHandlers :=
          [("CreateUserCommand", handlerReturning (.int 1))] }
        ⟨2, "CreateUserCommand", []⟩ (handlerReturning (.int 2)) =
      .error (.error ("Command handler for " ++ "CreateUserCommand" ++
        " is already registered")) ∧
    ({ emptyBus with commandHandlers :=
        [("CreateUserCommand", handlerReturning (.int 1))] } :
      MediatorBus).commandHandlers.lookup "CreateUserCommand" =
        some (handlerReturning (.int 1)) := by
  have h := duplicate_registration_rejected.1 emptyBus
    { emptyBus with commandHandlers :=
      [("CreateUserCommand", handlerReturning (.int 1))] }
    ⟨1, "CreateUserCommand", []⟩ ⟨2, "CreateUserCommand", []⟩
    (handlerReturning (.int 1)) (handlerReturning (.int 2)) rfl rfl
  exact ⟨h.1, h.2.1⟩

/-- C7: dispatching a request with no handler registered in the
corresponding namespace — whatever the other namespace holds — throws
`HandlerNotFoundException` carrying the request name and that namespace,
and the bus (hence both handler maps) is unchanged. -/
theorem handler_not_found :
    (∀ (bus : MediatorBus) (req : Request),
      bus.commandHandlers.lookup req.ty.name = none →
      (∀ tr : Trace, (send bus req).2 tr =
        (tr, .error (.handlerNotFound req.ty.name .command))) ∧
      (send bus req).1 = bus) ∧
    (∀ (bus : MediatorBus) (req : Request),
      bus.queryHandlers.lookup req.ty.name = none →
      (∀ tr : Trace, (query bus req).2 tr =
        (tr, .error (.handlerNotFound req.ty.name .query))) ∧
      (query bus req).1 = bus) := by
  constructor
  · intro bus req hc
    exact ⟨fun tr => by simp [send, hc], by simp [send, hc]⟩
  · intro bus req hq
    exact ⟨fun tr => by simp [query, hq], by simp [query, hq]⟩

/-- Witness for C7 at the cross-namespace case: `Q` registered only as a
query handler still fails `send` with the command-namespace error, and
symmetrically. -/
theorem handler_not_found_witness :
    (send { emptyBus with queryHandlers := [("Q", handlerReturning .unit)] }
        reqQ).2 [] =
      ([], .error (.handlerNotFound "Q" .command)) ∧
    (query { emptyBus with commandHandlers := [("Q", handlerReturning .unit)] }
        reqQ).2 [] =
      ([], .error (.handlerNotFound "Q" .query)) := by
  exact ⟨(handler_not_found.1
      { emptyBus with queryHandlers := [("Q", handlerReturning .unit)] }
      reqQ rfl).1 [],
    (handler_not_found.2
      { emptyBus with commandHandlers := [("Q", handlerReturning .unit)] }
      reqQ rfl).1 []⟩

/-- C8: on an object request, the validation behavior throws a
`ValidationException` carrying the full error list — independently of the
continuation, which is therefore never invoked — when the validation
strategy produces errors, and otherwise returns the continuation itself
unchanged. -/
theorem validation_behavior_contract
    (validate : Request → List VError) (request : Request)
    (hobj : request.isObj = true) :
    (validate request ≠ [] →
      ∀ (next : PipeM Value) (tr : Trace),
        ValidationBehavior.handle validate request next tr =
          (tr, .error (.validationExc (validate request)))) ∧
    (validate request = [] →
      ∀ next : PipeM Value,
        ValidationBehavior.handle validate request next = next) := by
  constructor
  · intro hne next tr
    rw [ValidationBehavior.handle]
    simp only [hobj, Bool.not_true, Bool.false_eq_true, if_false]
    rw [if_pos (List.length_pos.2 hne)]
  · intro hemp next
    rw [ValidationBehavior.handle]
    simp [hobj, hemp]

/-- Witness for C8: a failing and a passing validator on a concrete
request. -/
theorem validation_behavior_contract_witness :
    (ValidationBehavior.handle (fun _ => [⟨"email", "Email is required"⟩])
        reqQ (fun tr => (tr, .ok .unit)) [] =
      ([], .error (.validationExc [⟨"email", "Email is required"⟩]))) ∧
    (ValidationBehavior.handle (fun _ => []) reqQ
        (fun tr => (tr, .ok .unit)) =
      (fun tr => (tr, .ok .unit))) := by
  have h := validation_behavior_contract
    (fun _ => [⟨"email", "Email is required"⟩]) reqQ rfl
  have h2 := validation_behavior_contract (fun _ => []) reqQ rfl
  exact ⟨h.1 (by simp) _ [], h2.2 rfl _⟩

/-- C9 is false on the code: the dispatch identity is the class's display
name, so the two distinct request classes with ids 1 and 2 sharing the
name `CreateUserCommand` are conflated — the second registration is
rejected as a duplicate, and a request of the second class is dispatched
to the first class's handler. -/
theorem name_collision_counterexample :
    (⟨1, "CreateUserCommand", []⟩ : RequestType) ≠
        ⟨2, "CreateUserCommand", []⟩ ∧
    registerCommandHandler emptyBus ⟨1, "CreateUserCommand", []⟩
        (handlerReturning (.int 1)) =
      .ok { emptyBus with commandHandlers :=
        [("CreateUserCommand", handlerReturning (.int 1))] } ∧
    registerCommandHandler
        { emptyBus with commandHandlers :=
          [("CreateUserCommand", handlerReturning (.int 1))] }
        ⟨2, "CreateUserCommand", []⟩ (handlerReturning (.int 2)) =
      .error (.error ("Command handler for " ++ "CreateUserCommand" ++
        " is already registered")) ∧
    (send { emptyBus with commandHandlers :=
          [("CreateUserCommand", handlerReturning (.int 1))] }
        ⟨⟨2, "CreateUserCommand", []⟩, true, .unit⟩).2 [] =
      ([Ev.handled (.int 1)], .ok (.int 1)) := by
  exact ⟨by decide, rfl, rfl, rfl⟩

/-- C9 amended: the identity used by registration and dispatch is the
request class's display name string — any two request classes with equal
names are treated as the same request type by registration and by handler
resolution. -/
theorem dispatch_identity_is_display_name
    (bus : MediatorBus) (rt rt' : RequestType) (hnd : HandlerRef)
    (hname : rt.name = rt'.name) :
    registerCommandHandler bus rt hnd = registerCommandHandler bus rt' hnd ∧
    registerQueryHandler bus rt hnd = registerQueryHandler bus rt' hnd ∧
    ∀ d d' : Request, d.ty = rt → d'.ty = rt' →
      bus.commandHandlers.lookup d.ty.name =
        bus.commandHandlers.lookup d'.ty.name := by
  refine ⟨?_, ?_, ?_⟩
  · rw [registerCommandHandler, registerCommandHandler, hname]
  · rw [registerQueryHandler, registerQueryHandler, hname]
  · intro d d' hd hd'
    rw [hd, hd', hname]

/-- Witness for the amended C9 at two concrete same-named classes. -/
theorem dispatch_identity_is_display_name_witness :
    registerCommandHandler emptyBus ⟨1, "N", []⟩ (handlerReturning .unit) =
      registerCommandHandler emptyBus ⟨2, "N", []⟩ (handlerReturning .unit) :=
  (dispatch_identity_is_display_name emptyBus ⟨1, "N", []⟩ ⟨2, "N", []⟩
    (handlerReturning .unit) rfl).1

/-- C4: after every registration sequence the behavior list is sorted by
effective priority ascending, with equal-priority behaviors in their
registration order (the stable re-sort happens at registration time), and
dispatch only filters the list — the applicable selection is a sublist of
the registry, never re-sorted. -/
theorem behavior_registry_sort_invariant
    (regs : List (BehaviorType × PipelineBehaviorOptions)) :
    (registerAll emptyBus regs).pipelineBehaviors.Pairwise
        (fun x y => effPriority x ≤ effPriority y) ∧
    (∀ k : Int,
      (registerAll emptyBus regs).pipelineBehaviors.filter
          (fun b => effPriority b == k) =
        (regs.map mkRB).filter (fun b => effPriority b == k)) ∧
    (∀ (bus : MediatorBus) (req : Request) (scope : DispatchKind),
      (applicableBehaviors bus req scope).Sublist bus.pipelineBehaviors) := by
  refine ⟨registerAll_sorted regs emptyBus (by simp [emptyBus]), ?_, ?_⟩
  · intro k
    simpa [emptyBus] using registerAll_filter k regs emptyBus
  · intro bus req scope
    exact applicable_sublist bus req scope

/-- C1: through any registry of traced behaviors built by registration
calls, both `send` and `query` dispatches enter the applicable behaviors
in list order — ascending effective priority, with equal-priority entries
in registration order — run the handler innermost, and exit them in
reverse order, resolving with the handler's value; the spec's A/B/C
scenario produces exactly the expected trace and the result 42. -/
theorem pipeline_execution_order :
    (∀ (regs : List (Nat × PipelineBehaviorOptions)) (rt : RequestType)
        (v : Value) (tr0 : Trace),
      (send (tracedCommandBus rt.name v regs) ⟨rt, true, .unit⟩).2 tr0 =
        (tr0 ++
          ((applicableBehaviors (tracedCommandBus rt.name v regs)
              ⟨rt, true, .unit⟩ .command).map fun b => Ev.enter b.ty.id) ++
          [Ev.handled v] ++
          ((applicableBehaviors (tracedCommandBus rt.name v regs)
              ⟨rt, true, .unit⟩ .command).map fun b =>
                Ev.leave b.ty.id).reverse,
         .ok v) ∧
      (applicableBehaviors (tracedCommandBus rt.name v regs)
          ⟨rt, true, .unit⟩ .command).Pairwise
        (fun a b => effPriority a ≤ effPriority b) ∧
      (∀ k : Int,
        (applicableBehaviors (tracedCommandBus rt.name v regs)
            ⟨rt, true, .unit⟩ .command).filter
            (fun b => effPriority b == k) =
          ((regs.map fun p => (tracedBehaviorType p.1, p.2)).map mkRB).filter
            (fun b =>
              ((b.options.scope.getD .all == Scope.all ||
                b.options.scope.getD .all ==
                  DispatchKind.command.toScope) &&
               !((⟨rt, true, .unit⟩ : Request).ty.skipList.any fun s =>
                  s == b.ty.id)) &&
              (effPriority b == k)))) ∧
    (∀ (regs : List (Nat × PipelineBehaviorOptions)) (rt : RequestType)
        (v : Value) (tr0 : Trace),
      (query (tracedQueryBus rt.name v regs) ⟨rt, true, .unit⟩).2 tr0 =
        (tr0 ++
          ((applicableBehaviors (tracedQueryBus rt.name v regs)
              ⟨rt, true, .unit⟩ .query).map fun b => Ev.enter b.ty.id) ++
          [Ev.handled v] ++
          ((applicableBehaviors (tracedQueryBus rt.name v regs)
              ⟨rt, true, .unit⟩ .query).map fun b =>
                Ev.leave b.ty.id).reverse,
         .ok v) ∧
      (applicableBehaviors (tracedQueryBus rt.name v regs)
          ⟨rt, true, .unit⟩ .query).Pairwise
        (fun a b => effPriority a ≤ effPriority b) ∧
      (∀ k : Int,
        (applicableBehaviors (tracedQueryBus rt.name v regs)
            ⟨rt, true, .unit⟩ .query).filter
            (fun b => effPriority b == k) =
          ((regs.map fun p => (tracedBehaviorType p.1, p.2)).map mkRB).filter
            (fun b =>
              ((b.options.scope.getD .all == Scope.all ||
                b.options.scope.getD .all ==
                  DispatchKind.query.toScope) &&
               !((⟨rt, true, .unit⟩ : Request).ty.skipList.any fun s =>
                  s == b.ty.id)) &&
              (effPriority b == k)))) ∧
    (query busABC reqQ).2 [] =
      ([Ev.enter 1, Ev.enter 2, Ev.enter 3, Ev.handled (.int 42),
        Ev.leave 3, Ev.leave 2, Ev.leave 1], .ok (.int 42)) := by
  refine ⟨?_, ?_, ?_⟩
  · intro regs rt v tr0
    have htr : ∀ x ∈ (tracedCommandBus rt.name v regs).pipelineBehaviors,
        IsTraced x := registerAll_traced _ rfl regs
    have hh : (tracedCommandBus rt.name v regs).commandHandlers.lookup
        (⟨rt, true, Value.unit⟩ : Request).ty.name =
          some (handlerReturning v) := by
      rw [tracedCommandBus, registerAll_commandHandlers]
      simp [List.lookup]
    have hsorted : (tracedCommandBus rt.name v
        regs).pipelineBehaviors.Pairwise
        (fun x y => effPriority x ≤ effPriority y) := by
      rw [tracedCommandBus]
      exact registerAll_sorted _ _ (by simp [emptyBus])
    refine ⟨send_run _ _ v tr0 htr hh,
      hsorted.sublist (applicable_sublist _ _ _), ?_⟩
    intro k
    rw [tracedCommandBus]
    exact applicable_filter_key
      { emptyBus with commandHandlers := [(rt.name, handlerReturning v)] }
      (regs.map fun p => (tracedBehaviorType p.1, p.2)) rfl
      ⟨rt, true, .unit⟩ .command k
  · intro regs rt v tr0
    have htr : ∀ x ∈ (tracedQueryBus rt.name v regs).pipelineBehaviors,
        IsTraced x := registerAll_traced _ rfl regs
    have hh : (tracedQueryBus rt.name v regs).queryHandlers.lookup
        (⟨rt, true, Value.unit⟩ : Request).ty.name =
          some (handlerReturning v) := by
      rw [tracedQueryBus, registerAll_queryHandlers]
      simp [List.lookup]
    have hsorted : (tracedQueryBus rt.name v
        regs).pipelineBehaviors.Pairwise
        (fun x y => effPriority x ≤ effPriority y) := by
      rw [tracedQueryBus]
      exact registerAll_sorted _ _ (by simp [emptyBus])
    refine ⟨query_run _ _ v tr0 htr hh,
      hsorted.sublist (applicable_sublist _ _ _), ?_⟩
    intro k
    rw [tracedQueryBus]
    exact applicable_filter_key
      { emptyBus with queryHandlers := [(rt.name, handlerReturning v)] }
      (regs.map fun p => (tracedBehaviorType p.1, p.2)) rfl
      ⟨rt, true, .unit⟩ .query k
  · rfl

/-- C5: a behavior whose class identity is on the dispatched request
class's skip list never has its `handle` entered, on either dispatch path,
even though it is registered. -/
theorem skip_list_behavior_never_runs
    (bus : MediatorBus) (req : Request) (v : Value) (b : RegisteredBehavior)
    (htr : ∀ x ∈ bus.pipelineBehaviors, IsTraced x)
    (_hb : b ∈ bus.pipelineBehaviors)
    (hskip : b.ty.id ∈ req.ty.skipList) :
    (bus.commandHandlers.lookup req.ty.name = some (handlerReturning v) →
      Ev.enter b.ty.id ∉ ((send bus req).2 []).1) ∧
    (bus.queryHandlers.lookup req.ty.name = some (handlerReturning v) →
      Ev.enter b.ty.id ∉ ((query bus req).2 []).1) := by
  constructor
  · intro hh
    rw [send_run bus req v [] htr hh]
    exact enter_notin_trace fun x hx hxe =>
      applicable_not_skipped hx (hxe.symm ▸ hskip)
  · intro hh
    rw [query_run bus req v [] htr hh]
    exact enter_notin_trace fun x hx hxe =>
      applicable_not_skipped hx (hxe.symm ▸ hskip)

/-- Witness for C5: class id 7 is globally registered with scope `all`,
`reqSkip`'s class skip-lists it, and it is never entered. -/
theorem skip_list_behavior_never_runs_witness :
    Ev.enter 7 ∉ ((query busSkip reqSkip).2 []).1 := by
  refine (skip_list_behavior_never_runs busSkip reqSkip .unit
    ⟨tracedBehaviorType 7, ⟨some 0, some .all⟩⟩ ?_ ?_ ?_).2 rfl
  · intro x hx
    simp only [busSkip, List.mem_singleton] at hx
    subst hx
    rfl
  · simp [busSkip]
  · decide

/-- C6: a behavior registered with scope `query` is never entered by any
`send` dispatch, one registered with scope `command` is never entered by
any `query` dispatch, and a scope-`all` behavior that is not skipped is
applicable in both namespaces. -/
theorem scope_restricts_dispatch :
    (∀ (bus : MediatorBus) (req : Request) (v : Value)
        (b : RegisteredBehavior),
      (∀ x ∈ bus.pipelineBehaviors, IsTraced x) →
      b ∈ bus.pipelineBehaviors →
      (∀ x ∈ bus.pipelineBehaviors, x.ty.id = b.ty.id →
        x.options.scope.getD .all = .query) →
      bus.commandHandlers.lookup req.ty.name = some (handlerReturning v) →
      Ev.enter b.ty.id ∉ ((send bus req).2 []).1) ∧
    (∀ (bus : MediatorBus) (req : Request) (v : Value)
        (b : RegisteredBehavior),
      (∀ x ∈ bus.pipelineBehaviors, IsTraced x) →
      b ∈ bus.pipelineBehaviors →
      (∀ x ∈ bus.pipelineBehaviors, x.ty.id = b.ty.id →
        x.options.scope.getD .all = .command) →
      bus.queryHandlers.lookup req.ty.name = some (handlerReturning v) →
      Ev.enter b.ty.id ∉ ((query bus req).2 []).1) ∧
    (∀ (bus : MediatorBus) (req : Request) (b : RegisteredBehavior),
      b ∈ bus.pipelineBehaviors →
      b.options.scope.getD .all = .all →
      b.ty.id ∉ req.ty.skipList →
      b ∈ applicableBehaviors bus req .command ∧
        b ∈ applicableBehaviors bus req .query) := by
  refine ⟨?_, ?_, ?_⟩
  · intro bus req v b htr hb hsc hh
    rw [send_run bus req v [] htr hh]
    refine enter_notin_trace fun x hx hxe => ?_
    have hx' := applicable_scope_matches hx
    rw [hsc x (mem_applicable hx) hxe] at hx'
    exact absurd hx' (by decide)
  · intro bus req v b htr hb hsc hh
    rw [query_run bus req v [] htr hh]
    refine enter_notin_trace fun x hx hxe => ?_
    have hx' := applicable_scope_matches hx
    rw [hsc x (mem_applicable hx) hxe] at hx'
    exact absurd hx' (by decide)
  · intro bus req b hb hsc hsk
    exact ⟨mem_applicable_of hb (by rw [hsc]; rfl) hsk,
      mem_applicable_of hb (by rw [hsc]; rfl) hsk⟩

/-- Witness for C6: a query-scoped behavior is silent on `send`, a
command-scoped one is silent on `query`, and a scope-`all` one is
applicable on the command side. -/
theorem scope_restricts_dispatch_witness :
    Ev.enter 8 ∉ ((send busQScoped reqR).2 []).1 ∧
    Ev.enter 9 ∉ ((query busCScoped reqR).2 []).1 ∧
    (⟨tracedBehaviorType 12, ⟨some 0, some .all⟩⟩ : RegisteredBehavior) ∈
      applicableBehaviors busAllScoped reqR .command := by
  refine ⟨?_, ?_, ?_⟩
  · refine scope_restricts_dispatch.1 busQScoped reqR .unit
      ⟨tracedBehaviorType 8, ⟨some 0, some .query⟩⟩ ?_ ?_ ?_ rfl
    · intro x hx
      simp only [busQScoped, List.mem_singleton] at hx
      subst hx
      rfl
    · simp [busQScoped]
    · intro x hx _
      simp only [busQScoped, List.mem_singleton] at hx
      subst hx
      rfl
  · refine scope_restricts_dispatch.2.1 busCScoped reqR .unit
      ⟨tracedBehaviorType 9, ⟨some 0, some .command⟩⟩ ?_ ?_ ?_ rfl
    · intro x hx
      simp only [busCScoped, List.mem_singleton] at hx
      subst hx
      rfl
    · simp [busCScoped]
    · intro x hx _
      simp only [busCScoped, List.mem_singleton] at hx
      subst hx
      rfl
  · exact (scope_restricts_dispatch.2.2 busAllScoped reqR
      ⟨tracedBehaviorType 12, ⟨some 0, some .all⟩⟩
      (by simp [busAllScoped]) rfl (by decide)).1

/-- C10: behavior registration performs no duplicate check — registering
the same class twice adds two entries, and an applicable dispatch enters
its `handle` twice, nested one inside the other. -/
theorem duplicate_behavior_registration
    (i : Nat) (p : Int) (rt : RequestType) (v : Value)
    (hskip : i ∉ rt.skipList) :
    (∀ (bus : MediatorBus) (bt : BehaviorType)
        (o : PipelineBehaviorOptions),
      List.countP (fun b => b.ty.id == bt.id)
          (registerPipelineBehavior
            (registerPipelineBehavior bus bt o) bt o).pipelineBehaviors =
        List.countP (fun b => b.ty.id == bt.id)
          bus.pipelineBehaviors + 2) ∧
    (query
        (registerAll
          { emptyBus with queryHandlers := [(rt.name, handlerReturning v)] }
          [(tracedBehaviorType i, ⟨some p, some .all⟩),
           (tracedBehaviorType i, ⟨some p, some .all⟩)])
        ⟨rt, true, .unit⟩).2 [] =
      ([Ev.enter i, Ev.enter i, Ev.handled v, Ev.leave i, Ev.leave i],
        .ok v) := by
  constructor
  · intro bus bt o
    have hstep : ∀ (l : List RegisteredBehavior),
        (stableSortByPriority (l ++ [⟨bt, o⟩])).countP
            (fun b => b.ty.id == bt.id) =
          l.countP (fun b => b.ty.id == bt.id) + 1 := by
      intro l
      rw [(stableSortByPriority_perm _).countP_eq]
      simp [List.countP_append, List.countP_cons]
    rw [registerPipelineBehavior, registerPipelineBehavior]
    rw [hstep, hstep]
  · have hreg : (registerAll
        { emptyBus with queryHandlers := [(rt.name, handlerReturning v)] }
        [(tracedBehaviorType i, ⟨some p, some .all⟩),
         (tracedBehaviorType i, ⟨some p, some .all⟩)]).pipelineBehaviors =
      [⟨tracedBehaviorType i, ⟨some p, some .all⟩⟩,
       ⟨tracedBehaviorType i, ⟨some p, some .all⟩⟩] := by
      simp [registerAll, registerPipelineBehavior, stableSortByPriority,
        sortInsert, emptyBus, effPriority, le_refl]
    have htr : ∀ x ∈ (registerAll
        { emptyBus with queryHandlers := [(rt.name, handlerReturning v)] }
        [(tracedBehaviorType i, ⟨some p, some .all⟩),
         (tracedBehaviorType i, ⟨some p, some .all⟩)]).pipelineBehaviors,
        IsTraced x := by
      intro x hx
      rw [hreg] at hx
      rcases List.mem_cons.1 hx with rfl | hx
      · rfl
      · rcases List.mem_singleton.1 hx with rfl
        rfl
    have hh : (registerAll
        { emptyBus with queryHandlers := [(rt.name, handlerReturning v)] }
        [(tracedBehaviorType i, ⟨some p, some .all⟩),
         (tracedBehaviorType i, ⟨some p, some .all⟩)]).queryHandlers.lookup
          (⟨rt, true, .unit⟩ : Request).ty.name =
        some (handlerReturning v) := by
      rw [registerAll_queryHandlers]
      simp [List.lookup]
    rw [query_run _ _ v [] htr hh]
    have hsk : (rt.skipList.any fun s => s == i) = false := by
      rw [List.any_eq_false]
      intro s hs hbeq
      exact hskip ((by simpa using hbeq : s = i) ▸ hs)
    have haps : applicableBehaviors (registerAll
        { emptyBus with queryHandlers := [(rt.name, handlerReturning v)] }
        [(tracedBehaviorType i, ⟨some p, some .all⟩),
         (tracedBehaviorType i, ⟨some p, some .all⟩)])
        ⟨rt, true, .unit⟩ .query =
      [⟨tracedBehaviorType i, ⟨some p, some .all⟩⟩,
       ⟨tracedBehaviorType i, ⟨some p, some .all⟩⟩] := by
      rw [applicableBehaviors, hreg]
      simp [tracedBehaviorType, hsk]
    rw [haps]
    simp [tracedBehaviorType]

/-- Witness for C10 with class id 4 and a concrete request. -/
theorem duplicate_behavior_registration_witness :
    (query
        (registerAll
          { emptyBus with queryHandlers := [("Q", handlerReturning (.int 5))] }
          [(tracedBehaviorType 4, ⟨some 0, some .all⟩),
           (tracedBehaviorType 4, ⟨some 0, some .all⟩)])
        ⟨⟨9, "Q", []⟩, true, .unit⟩).2 [] =
      ([Ev.enter 4, Ev.enter 4, Ev.handled (.int 5), Ev.leave 4,
        Ev.leave 4], .ok (.int 5)) :=
  (duplicate_behavior_registration 4 0 ⟨9, "Q", []⟩ (.int 5) (by decide)).2

/-- C2 is refuted by the code (code bug): `buildPipeline` never consults a
behavior's declared target type, so a behavior declaring `targetType` 100
still has its `handle` invoked for an in-scope request of class id 200. -/
theorem target_type_ignored_at_dispatch :
    (tracedBehaviorType 7 (some 100)).targetType = some 100 ∧
    (⟨⟨200, "OtherCommand", []⟩, true, .unit⟩ : Request).ty.id ≠ 100 ∧
    (send
        { emptyBus with
          commandHandlers := [("OtherCommand", handlerReturning .unit)],
          pipelineBehaviors :=
            [⟨tracedBehaviorType 7 (some 100), ⟨some 0, some .command⟩⟩] }
        ⟨⟨200, "OtherCommand", []⟩, true, .unit⟩).2 [] =
      ([Ev.enter 7, Ev.handled .unit, Ev.leave 7], .ok .unit) := by
  exact ⟨rfl, by decide, rfl⟩

end NestMediator
